import Mathlib

/- Verification of the MyData folder-scanning and resumable-upload
engine.  All definitions are shallow embeddings of the Python source:
`mydata/utils/openssh.py` (the resumable chunked uploader),
`mydata/models/user.py` (identity lookup), `mydata/models/datafile.py`
(verification requests) and `FoldersModel.py` (folder scanning).
Line numbers in doc comments refer to those files. -/

namespace MyData

/- ------------------------------------------------------------------
Chunk-size selection, openssh.py lines 782-788 (POSIX uploader) and
lines 1119-1125 (Windows uploader); the two code blocks are identical:
  chunkSize = defaultChunkSize
  numIncrements = 50
  while (fileSize / chunkSize) > numIncrements and chunkSize < maxChunkSize:
      chunkSize = chunkSize * 2
This is Python 2, so `/` on nonnegative integers is floor division.
------------------------------------------------------------------ -/

/-- The chunk-size doubling loop.  `fuel` bounds the number of loop
iterations so the definition is structural (and hence kernel-evaluable);
`GetChunkSize` passes `maxChunkSize + 1`, which always suffices because
`chunkSize` doubles on every iteration and the loop stops as soon as
`chunkSize ≥ maxChunkSize` (see `chunkSizeLoop_spec`). -/
def chunkSizeLoop (fileSize maxChunkSize : Nat) : Nat → Nat → Nat
  | 0, chunkSize => chunkSize
  | fuel + 1, chunkSize =>
    if 50 < fileSize / chunkSize ∧ chunkSize < maxChunkSize then
      chunkSizeLoop fileSize maxChunkSize fuel (chunkSize * 2)
    else chunkSize

/-- The chunk size the large-file uploaders choose for a file of size
`fileSize`, starting from `defaultChunkSize`
(`settingsModel.GetDefaultChunkSize()`) and bounded by `maxChunkSize`
(`settingsModel.GetMaxChunkSize()`). -/
def GetChunkSize (fileSize defaultChunkSize maxChunkSize : Nat) : Nat :=
  chunkSizeLoop fileSize maxChunkSize (maxChunkSize + 1) defaultChunkSize

/-- Exact characterisation of the doubling loop: provided the fuel is
large enough (`m ≤ c * 2 ^ fuel`), the loop returns the first element of
the sequence c, 2c, 4c, ... at which `S / chunkSize ≤ 50` (floor
division) or `chunkSize ≥ m`. -/
theorem chunkSizeLoop_spec (S m : Nat) :
    ∀ (fuel c : Nat), 0 < c → m ≤ c * 2 ^ fuel →
    ∃ k, chunkSizeLoop S m fuel c = c * 2 ^ k ∧
      (S / (c * 2 ^ k) ≤ 50 ∨ m ≤ c * 2 ^ k) ∧
      ∀ j, j < k → 50 < S / (c * 2 ^ j) ∧ c * 2 ^ j < m := by
  intro fuel
  induction fuel with
  | zero =>
    intro c hc hm
    refine ⟨0, by simp [chunkSizeLoop], Or.inr (by simpa using hm), ?_⟩
    intro j hj
    omega
  | succ fuel ih =>
    intro c hc hm
    by_cases hcond : 50 < S / c ∧ c < m
    · have hc2 : 0 < c * 2 := by omega
      have hm2 : m ≤ c * 2 * 2 ^ fuel := by
        have : c * 2 ^ (fuel + 1) = c * 2 * 2 ^ fuel := by ring
        omega
      obtain ⟨k, hk, hstop, hall⟩ := ih (c * 2) hc2 hm2
      have hpow : c * 2 * 2 ^ k = c * 2 ^ (k + 1) := by ring
      refine ⟨k + 1, ?_, ?_, ?_⟩
      · simp only [chunkSizeLoop, if_pos hcond]
        rw [hk, hpow]
      · rw [← hpow]; exact hstop
      · intro j hj
        match j with
        | 0 => simpa using hcond
        | j + 1 =>
          have h2 : c * 2 * 2 ^ j = c * 2 ^ (j + 1) := by ring
          have := hall j (by omega)
          rw [h2] at this
          exact this
    · refine ⟨0, ?_, ?_, ?_⟩
      · simp only [chunkSizeLoop, if_neg hcond]
        simp
      · rcases not_and_or.mp hcond with h | h
        · exact Or.inl (by simpa using Nat.not_lt.mp h)
        · exact Or.inr (by simpa using Nat.not_lt.mp h)
      · intro j hj
        omega

/-- Characterisation of the chosen chunk size: it is the first element
of the sequence d, 2d, 4d, ... at which the number of full chunks
`S / chunkSize` (floor) is at most 50 or the chunk size has reached the
configured maximum `m`. -/
theorem GetChunkSize_spec (S d m : Nat) (hd : 0 < d) :
    ∃ k, GetChunkSize S d m = d * 2 ^ k ∧
      (S / (d * 2 ^ k) ≤ 50 ∨ m ≤ d * 2 ^ k) ∧
      ∀ j, j < k → 50 < S / (d * 2 ^ j) ∧ d * 2 ^ j < m := by
  apply chunkSizeLoop_spec S m (m + 1) d hd
  have h1 : m < 2 ^ m := Nat.lt_two_pow m
  have h2 : (2 : Nat) ^ m ≤ 2 ^ (m + 1) := Nat.pow_le_pow_right (by omega) (by omega)
  have h3 : 2 ^ (m + 1) ≤ d * 2 ^ (m + 1) := Nat.le_mul_of_pos_left _ hd
  omega

/-- The chosen chunk size is positive whenever the default chunk size is. -/
theorem GetChunkSize_pos (S d m : Nat) (hd : 0 < d) :
    0 < GetChunkSize S d m := by
  obtain ⟨k, hk, -, -⟩ := GetChunkSize_spec S d m hd
  rw [hk]
  positivity

/-- C3 counterexample.  The claim says the chosen chunk size is the
smallest power-of-two multiple of the default chunk size `d` such that
`ceil(S / chunkSize) ≤ 50` (capped at `m`).  For `S = 101`, `d = 1`,
`m = 1024` the code stops at chunk size 2 because `101 / 2 = 50 ≤ 50`
(floor division), yet `ceil(101 / 2) = 51 > 50` while the cap has not
been hit (`2 < 1024`); the smallest power-of-two multiple of 1 with
`ceil(101 / c) ≤ 50` is 4, which the code does not choose. -/
theorem C3_counterexample :
    GetChunkSize 101 1 1024 = 2 ∧
    50 < (101 + 2 - 1) / 2 ∧
    (2 : Nat) < 1024 ∧
    (101 + 4 - 1) / 4 ≤ 50 ∧
    GetChunkSize 101 1 1024 ≠ 4 := by decide

/-- C3 (corrected): for every file size `S`, default chunk size `d > 0`
and max chunk size `m`, the chunk size chosen by the large-file
uploaders is the first power-of-two multiple of `d` (scanning d, 2d,
4d, ...) at which the number of FULL chunks `floor(S / chunkSize)` is at
most 50, or which has reached the cap `m`; every earlier element of the
sequence has more than 50 full chunks and lies strictly below the cap. -/
theorem C3_chunk_size_selection (S d m : Nat) (hd : 0 < d) :
    ∃ k, GetChunkSize S d m = d * 2 ^ k ∧
      (S / (d * 2 ^ k) ≤ 50 ∨ m ≤ d * 2 ^ k) ∧
      ∀ j, j < k → 50 < S / (d * 2 ^ j) ∧ d * 2 ^ j < m :=
  GetChunkSize_spec S d m hd

/-- Witness for C3_chunk_size_selection at S = 101, d = 1, m = 1024. -/
theorem C3_chunk_size_selection_witness :
    0 < 1 ∧
    ∃ k, GetChunkSize 101 1 1024 = 1 * 2 ^ k ∧
      (101 / (1 * 2 ^ k) ≤ 50 ∨ 1024 ≤ 1 * 2 ^ k) ∧
      ∀ j, j < k → 50 < 101 / (1 * 2 ^ j) ∧ 1 * 2 ^ j < 1024 :=
  ⟨by decide, C3_chunk_size_selection 101 1 1024 (by decide)⟩

/- ------------------------------------------------------------------
The resumable chunked uploader, UploadLargeFileFromPosixSystem
(openssh.py lines 699-967).  The observable behaviour is modelled as a
trace of the local dd reads and the remote SSH/SCP operations the
function issues, together with the evolving local loop variables and
the length of the remote (staging) datafile.
------------------------------------------------------------------ -/

/-- One observable action of the uploader.
`mkdirRemoteDir`: the pre-loop `ssh ... mkdir -p` (lines 721-750).
`removeChunk`: an `ssh ... /bin/rm -f remoteChunkPath` (lines 752-780
before the loop, lines 940-967 after it).
`ddRead skip len`: the local `dd bs=chunkSize skip=skip count=1`
extracting chunk number `skip` of `len` bytes (lines 814-846).
`scpChunk len`: the scp of the chunk file to the remote chunk path
(lines 848-881).
`appendChunk len truncating`: the remote
`cat remoteChunkPath > remoteFilePath` (truncating = true, first chunk)
or `cat remoteChunkPath >> remoteFilePath` (lines 896-930). -/
inductive UploadAction where
  | mkdirRemoteDir : UploadAction
  | removeChunk : UploadAction
  | ddRead (skip len : Nat) : UploadAction
  | scpChunk (len : Nat) : UploadAction
  | appendChunk (len : Nat) (truncating : Bool) : UploadAction
deriving DecidableEq

/-- The state carried around the chunk loop: the Python locals
`bytesUploaded` and `skip`, the current length of the remote datafile,
the number of cancellation checks performed so far (each check samples
`foldersController.IsShuttingDown() or uploadModel.Canceled()`), and
the trace of actions issued so far, oldest first. -/
structure LoopState where
  bytesUploaded : Nat
  skip : Nat
  remoteLen : Nat
  checkIdx : Nat
  ops : List UploadAction
deriving DecidableEq

/-- How a run of UploadLargeFileFromPosixSystem ends.
`canceled`: an early `return` from a cancellation check (lines 805-808
or 935-938); the post-loop cleanup is skipped.  `completed`: the loop
finished and the final remote rm succeeded (lines 940-967).
`sshError`: the final remote rm returned a non-zero exit code and
`raise SshException` ran (lines 966-967).  `outOfFuel` marks fuel
exhaustion of the bounded model and is never reached with the fuel
`UploadLargeFileFromPosixSystem` supplies (see `chunkLoop_complete_spec`). -/
inductive UploadOutcome where
  | canceled : LoopState → UploadOutcome
  | completed : LoopState → UploadOutcome
  | sshError : LoopState → UploadOutcome
  | outOfFuel : LoopState → UploadOutcome
deriving DecidableEq

/-- Number of bytes `dd bs=chunkSize skip=skip count=1` reads from a
file of `fileSize` bytes: a full chunk, or whatever remains before
end of file. -/
def ddChunkLen (fileSize chunkSize skip : Nat) : Nat :=
  min chunkSize (fileSize - skip * chunkSize)

/-- The body of one chunk iteration (lines 810-933), between the two
cancellation checks: dd the chunk to a local temporary file, `skip += 1`,
scp it to the remote chunk path, append it onto the remote datafile
(`>` when `bytesUploaded == 0`, else `>>`), then
`bytesUploaded += bytesTransferred`. -/
def iterate (fileSize chunkSize : Nat) (s : LoopState) : LoopState :=
  let len := ddChunkLen fileSize chunkSize s.skip
  { bytesUploaded := s.bytesUploaded + len
    skip := s.skip + 1
    remoteLen := (if s.bytesUploaded == 0 then 0 else s.remoteLen) + len
    checkIdx := s.checkIdx + 2
    ops := s.ops ++ [UploadAction.ddRead s.skip len,
                     UploadAction.scpChunk len,
                     UploadAction.appendChunk len (s.bytesUploaded == 0)] }

/-- The code after the loop (lines 940-967): remove the remote chunk
file; a non-zero exit code of the remote rm raises SshException. -/
def loopExit (finalRmExit : Nat) (s : LoopState) : UploadOutcome :=
  if finalRmExit ≠ 0 then
    UploadOutcome.sshError { s with ops := s.ops ++ [UploadAction.removeChunk] }
  else
    UploadOutcome.completed { s with ops := s.ops ++ [UploadAction.removeChunk] }

/-- The `while bytesUploaded < fileSize` loop (lines 804-938).
`cancelFlag i` is the value of
`foldersController.IsShuttingDown() or uploadModel.Canceled()` at the
i-th cancellation check (the flag is set asynchronously, so it is
modelled as an arbitrary function of the check number); the check at
the top of the loop body is lines 805-808, the one after the append is
lines 935-938, and each `return`s immediately, issuing no further
operation.  `fuel` bounds the number of iterations so the definition is
structural. -/
def chunkLoop (fileSize chunkSize : Nat) (cancelFlag : Nat → Bool)
    (finalRmExit : Nat) : Nat → LoopState → UploadOutcome
  | 0, s =>
    if s.bytesUploaded < fileSize then UploadOutcome.outOfFuel s
    else loopExit finalRmExit s
  | fuel + 1, s =>
    if s.bytesUploaded < fileSize then
      if cancelFlag s.checkIdx then
        UploadOutcome.canceled { s with checkIdx := s.checkIdx + 1 }
      else
        let s' := iterate fileSize chunkSize s
        if cancelFlag (s.checkIdx + 1) then UploadOutcome.canceled s'
        else chunkLoop fileSize chunkSize cancelFlag finalRmExit fuel s'
    else loopExit finalRmExit s

/-- The remote operations issued before the loop: the
`ssh ... mkdir -p` (lines 721-750) and the initial
`ssh ... /bin/rm -f remoteChunkPath` (lines 752-780). -/
def initOps : List UploadAction :=
  [UploadAction.mkdirRemoteDir, UploadAction.removeChunk]

/-- UploadLargeFileFromPosixSystem from the chunk-size selection
onwards (lines 782-967).  `bytesUploadedPreviously` is the byte count
found on the staging host (the `bytesUploaded` argument of the Python
function), which is also the current length of the remote datafile.
Lines 789-799: if `0 < bytesUploaded < fileSize` and `bytesUploaded`
is a whole number of chunks, resume with
`skip = bytesUploaded / chunkSize`; otherwise restart with
`bytesUploaded = 0` (the remote file is overwritten by the first
chunk's `>` redirect).  The fuel `fileSize + 1` always suffices because
every iteration uploads at least one byte. -/
def UploadLargeFileFromPosixSystem (fileSize defaultChunkSize maxChunkSize
    bytesUploadedPreviously : Nat) (cancelFlag : Nat → Bool)
    (finalRmExit : Nat) : UploadOutcome :=
  let chunkSize := GetChunkSize fileSize defaultChunkSize maxChunkSize
  if 0 < bytesUploadedPreviously ∧ bytesUploadedPreviously < fileSize ∧
      bytesUploadedPreviously % chunkSize = 0 then
    chunkLoop fileSize chunkSize cancelFlag finalRmExit (fileSize + 1)
      { bytesUploaded := bytesUploadedPreviously
        skip := bytesUploadedPreviously / chunkSize
        remoteLen := bytesUploadedPreviously
        checkIdx := 0
        ops := initOps }
  else
    chunkLoop fileSize chunkSize cancelFlag finalRmExit (fileSize + 1)
      { bytesUploaded := 0
        skip := 0
        remoteLen := bytesUploadedPreviously
        checkIdx := 0
        ops := initOps }

/-- Total number of bytes sent over scp in a trace. -/
def scpBytes : List UploadAction → Nat
  | [] => 0
  | UploadAction.scpChunk len :: rest => len + scpBytes rest
  | _ :: rest => scpBytes rest

/-- The dd skip indices (chunk numbers) read from the local file, in
order. -/
def ddSkips : List UploadAction → List Nat
  | [] => []
  | UploadAction.ddRead k _ :: rest => k :: ddSkips rest
  | _ :: rest => ddSkips rest

/-- Whether the trace contains at least one append onto the remote
datafile. -/
def hasAppend : List UploadAction → Bool
  | [] => false
  | UploadAction.appendChunk _ _ :: _ => true
  | _ :: rest => hasAppend rest

/-- The list k, k+1, ..., k+n-1 of consecutive chunk indices. -/
def seqFrom : Nat → Nat → List Nat
  | _, 0 => []
  | k, n + 1 => k :: seqFrom (k + 1) n

/-- A trace consisting solely of complete chunk iterations: each chunk
is dd-read, then copied whole to the remote chunk path, and only then
appended onto the remote datafile. -/
inductive ChunkBlocks : List UploadAction → Prop where
  | nil : ChunkBlocks []
  | cons (k len : Nat) (t : Bool) (rest : List UploadAction) :
      ChunkBlocks rest →
      ChunkBlocks (UploadAction.ddRead k len :: UploadAction.scpChunk len ::
        UploadAction.appendChunk len t :: rest)

theorem scpBytes_append (xs ys : List UploadAction) :
    scpBytes (xs ++ ys) = scpBytes xs + scpBytes ys := by
  induction xs with
  | nil => simp [scpBytes]
  | cons a tl ih => cases a <;> simp [scpBytes, ih] <;> omega

theorem ddSkips_append (xs ys : List UploadAction) :
    ddSkips (xs ++ ys) = ddSkips xs ++ ddSkips ys := by
  induction xs with
  | nil => simp [ddSkips]
  | cons a tl ih => cases a <;> simp [ddSkips, ih]

theorem hasAppend_append (xs ys : List UploadAction) :
    hasAppend (xs ++ ys) = (hasAppend xs || hasAppend ys) := by
  induction xs with
  | nil => simp [hasAppend]
  | cons a tl ih => cases a <;> simp [hasAppend, ih]

/-- Invariants of one chunk iteration: with a positive chunk size and
`bytesUploaded` a whole number of chunks strictly below `fileSize`, the
iteration uploads at least one byte; on exit `bytesUploaded` is either
again a whole number of chunks (a full chunk was appended) or equals
`fileSize` (the final, possibly short, chunk was appended); and the
remote datafile length always equals the new `bytesUploaded`. -/
theorem iterate_spec (F c : Nat) (hc : 0 < c) (s : LoopState)
    (hb : s.bytesUploaded < F) (hskip : s.bytesUploaded = s.skip * c) :
    0 < ddChunkLen F c s.skip ∧
    (iterate F c s).bytesUploaded = s.bytesUploaded + ddChunkLen F c s.skip ∧
    (iterate F c s).bytesUploaded ≤ F ∧
    (iterate F c s).skip = s.skip + 1 ∧
    (ddChunkLen F c s.skip = c ∨ (iterate F c s).bytesUploaded = F) ∧
    ((iterate F c s).bytesUploaded < F →
      (iterate F c s).bytesUploaded = (iterate F c s).skip * c) ∧
    ((s.bytesUploaded = 0 ∨ s.remoteLen = s.bytesUploaded) →
      (iterate F c s).remoteLen = (iterate F c s).bytesUploaded) ∧
    (iterate F c s).ops = s.ops ++
      [UploadAction.ddRead s.skip (ddChunkLen F c s.skip),
       UploadAction.scpChunk (ddChunkLen F c s.skip),
       UploadAction.appendChunk (ddChunkLen F c s.skip)
         (s.bytesUploaded == 0)] := by
  have hlen : ddChunkLen F c s.skip = min c (F - s.skip * c) := rfl
  refine ⟨?_, rfl, ?_, rfl, ?_, ?_, ?_, rfl⟩
  · omega
  · show s.bytesUploaded + ddChunkLen F c s.skip ≤ F
    omega
  · show _ ∨ s.bytesUploaded + ddChunkLen F c s.skip = F
    omega
  · intro h
    show s.bytesUploaded + ddChunkLen F c s.skip = (s.skip + 1) * c
    have h' : s.bytesUploaded + ddChunkLen F c s.skip < F := h
    have hmul : (s.skip + 1) * c = s.skip * c + c := by ring
    omega
  · intro hrem
    show (if s.bytesUploaded == 0 then 0 else s.remoteLen) +
        ddChunkLen F c s.skip = s.bytesUploaded + ddChunkLen F c s.skip
    by_cases h0 : s.bytesUploaded = 0 <;> simp [h0] <;> omega

/-- Conclusion of a run once `bytesUploaded` has reached `fileSize`:
the final remote rm is issued; its success yields `completed`, a
non-zero exit yields `sshError` (the modelled `raise SshException`). -/
theorem exit_case (F c rmE : Nat) (hc : 0 < c) (s : LoopState)
    (hrem : s.bytesUploaded = 0 ∨ s.remoteLen = s.bytesUploaded)
    (hbF : s.bytesUploaded = F) :
    ∃ (s' : LoopState) (mid : List UploadAction),
      loopExit rmE s =
        (if rmE = 0 then UploadOutcome.completed s'
         else UploadOutcome.sshError s') ∧
      s'.bytesUploaded = F ∧
      (0 < F → s'.remoteLen = F) ∧
      s'.ops = s.ops ++ mid ++ [UploadAction.removeChunk] ∧
      scpBytes mid = F - s.bytesUploaded ∧
      ddSkips mid = seqFrom s.skip ((F - s.bytesUploaded + c - 1) / c) := by
  refine ⟨{ s with ops := s.ops ++ [UploadAction.removeChunk] }, [],
    ?_, hbF, ?_, by simp, by simp [scpBytes]; omega, ?_⟩
  · by_cases h0 : rmE = 0 <;> simp [loopExit, h0]
  · intro hF
    show s.remoteLen = F
    rcases hrem with h | h <;> omega
  · have h1 : (F - s.bytesUploaded + c - 1) / c = 0 :=
      Nat.div_eq_of_lt (by omega)
    simp [h1, seqFrom, ddSkips]

/-- Full-run specification of the chunk loop with no cancellation: from
a state whose `bytesUploaded` is a whole number of chunks not exceeding
`fileSize` and whose remote length is consistent, given enough fuel the
loop uploads exactly the missing `fileSize - bytesUploaded` bytes in
consecutive chunks, brings the remote datafile to exactly `fileSize`
bytes, and ends with the remote chunk-file removal (completed on
rm success, SshException on failure). -/
theorem chunkLoop_complete_spec (F c rmE : Nat) (hc : 0 < c) :
    ∀ (fuel : Nat) (s : LoopState),
      (s.bytesUploaded < F → s.bytesUploaded = s.skip * c) →
      (s.bytesUploaded = 0 ∨ s.remoteLen = s.bytesUploaded) →
      s.bytesUploaded ≤ F →
      F ≤ s.bytesUploaded + fuel * c →
      ∃ (s' : LoopState) (mid : List UploadAction),
        chunkLoop F c (fun _ => false) rmE fuel s =
          (if rmE = 0 then UploadOutcome.completed s'
           else UploadOutcome.sshError s') ∧
        s'.bytesUploaded = F ∧
        (0 < F → s'.remoteLen = F) ∧
        s'.ops = s.ops ++ mid ++ [UploadAction.removeChunk] ∧
        scpBytes mid = F - s.bytesUploaded ∧
        ddSkips mid = seqFrom s.skip ((F - s.bytesUploaded + c - 1) / c) := by
  intro fuel
  induction fuel with
  | zero =>
    intro s hskip hrem hle hfuel
    have hbF : s.bytesUploaded = F := by omega
    have h := exit_case F c rmE hc s hrem hbF
    simpa [chunkLoop, hbF] using h
  | succ fuel ih =>
    intro s hskip hrem hle hfuel
    by_cases hb : s.bytesUploaded < F
    · have hsk := hskip hb
      obtain ⟨hlpos, hbytes, hble, hskip1, hfull, hskip', hrem', hops⟩ :=
        iterate_spec F c hc s hb hsk
      have hremt : (iterate F c s).bytesUploaded = 0 ∨
          (iterate F c s).remoteLen = (iterate F c s).bytesUploaded :=
        Or.inr (hrem' hrem)
      have hfuelt : F ≤ (iterate F c s).bytesUploaded + fuel * c := by
        have hring : (fuel + 1) * c = fuel * c + c := by ring
        rcases hfull with h | h <;> omega
      obtain ⟨s', mid, heq, hb', hr', hops', hscp', hdd'⟩ :=
        ih (iterate F c s) hskip' hremt hble hfuelt
      refine ⟨s', UploadAction.ddRead s.skip (ddChunkLen F c s.skip) ::
        UploadAction.scpChunk (ddChunkLen F c s.skip) ::
        UploadAction.appendChunk (ddChunkLen F c s.skip)
          (s.bytesUploaded == 0) :: mid,
        ?_, hb', hr', ?_, ?_, ?_⟩
      · simp only [chunkLoop, if_pos hb]
        simpa using heq
      · rw [hops', hops]
        simp
      · simp only [scpBytes]
        rw [hscp', hbytes]
        omega
      · simp only [ddSkips]
        rw [hdd', hskip1, hbytes]
        rcases hfull with hfc | hF
        · have h1 : F - s.bytesUploaded + c - 1 =
              (F - (s.bytesUploaded + ddChunkLen F c s.skip) + c - 1) + c := by
            omega
          rw [h1, Nat.add_div_right _ hc]
          simp [seqFrom]
        · have hFb : F = s.bytesUploaded + ddChunkLen F c s.skip := hF.symm
          have hlc : ddChunkLen F c s.skip ≤ c := by
            unfold ddChunkLen
            omega
          have h3 : (F - (s.bytesUploaded + ddChunkLen F c s.skip) + c - 1)
              / c = 0 := Nat.div_eq_of_lt (by omega)
          have h4 : (F - s.bytesUploaded + c - 1) / c = 1 :=
            Nat.div_eq_of_lt_le (by omega) (by omega)
          rw [h3, h4]
          simp [seqFrom]
    · have hbF : s.bytesUploaded = F := by omega
      have h := exit_case F c rmE hc s hrem hbF
      simpa [chunkLoop, hbF] using h

/-- Specification of canceled runs, for an arbitrary cancellation-flag
history: a run that ends in `canceled` stopped at a chunk boundary.  If
more chunks remained (`bytesUploaded < fileSize`), then `bytesUploaded`
is a whole number of chunks, and — once at least one chunk of this run
has been appended — the remote datafile length equals `bytesUploaded`.
Moreover everything this run added to the trace is complete
dd/scp/append chunk blocks: no further operation is issued after the
check that observed the flag. -/
theorem chunkLoop_canceled_spec (F c rmE : Nat) (hc : 0 < c)
    (cancelFlag : Nat → Bool) :
    ∀ (fuel : Nat) (s s' : LoopState),
      (s.bytesUploaded < F → s.bytesUploaded = s.skip * c) →
      (s.bytesUploaded = 0 ∨ s.remoteLen = s.bytesUploaded) →
      (hasAppend s.ops = true → s.remoteLen = s.bytesUploaded) →
      chunkLoop F c cancelFlag rmE fuel s = UploadOutcome.canceled s' →
      ((s'.bytesUploaded < F → ∃ N, s'.bytesUploaded = N * c) ∧
       (s'.bytesUploaded < F → hasAppend s'.ops = true →
          s'.remoteLen = s'.bytesUploaded) ∧
       ∃ tail, s'.ops = s.ops ++ tail ∧ ChunkBlocks tail) := by
  intro fuel
  induction fuel with
  | zero =>
    intro s s' hskip hrem happ heq
    by_cases hb : s.bytesUploaded < F
    · simp [chunkLoop, hb] at heq
    · simp only [chunkLoop, if_neg hb, loopExit] at heq
      by_cases h0 : rmE = 0 <;> simp [h0] at heq
  | succ fuel ih =>
    intro s s' hskip hrem happ heq
    by_cases hb : s.bytesUploaded < F
    · simp only [chunkLoop, if_pos hb] at heq
      by_cases hf1 : cancelFlag s.checkIdx
      · rw [if_pos hf1] at heq
        have hs' : s' = { s with checkIdx := s.checkIdx + 1 } := by
          cases heq
          rfl
        subst hs'
        refine ⟨?_, ?_, [], by simp, ChunkBlocks.nil⟩
        · intro hlt
          exact ⟨s.skip, hskip hlt⟩
        · intro hlt ha
          exact happ ha
      · rw [if_neg hf1] at heq
        have hsk := hskip hb
        obtain ⟨hlpos, hbytes, hble, hskip1, hfull, hskip', hrem', hops⟩ :=
          iterate_spec F c hc s hb hsk
        by_cases hf2 : cancelFlag (s.checkIdx + 1)
        · rw [if_pos hf2] at heq
          have hs' : s' = iterate F c s := by
            cases heq
            rfl
          subst hs'
          refine ⟨?_, ?_, ?_⟩
          · intro hlt
            exact ⟨s.skip + 1, by rw [hskip' hlt, hskip1]⟩
          · intro hlt ha
            exact hrem' hrem
          · refine ⟨UploadAction.ddRead s.skip (ddChunkLen F c s.skip) ::
              UploadAction.scpChunk (ddChunkLen F c s.skip) ::
              UploadAction.appendChunk (ddChunkLen F c s.skip)
                (s.bytesUploaded == 0) :: [], by simp [hops], ?_⟩
            exact ChunkBlocks.cons _ _ _ _ ChunkBlocks.nil
        · rw [if_neg hf2] at heq
          have happt : hasAppend (iterate F c s).ops = true →
              (iterate F c s).remoteLen = (iterate F c s).bytesUploaded :=
            fun _ => hrem' hrem
          obtain ⟨h1, h2, tail, htail, hblocks⟩ :=
            ih (iterate F c s) s' hskip' (Or.inr (hrem' hrem)) happt heq
          refine ⟨h1, h2, UploadAction.ddRead s.skip (ddChunkLen F c s.skip) ::
            UploadAction.scpChunk (ddChunkLen F c s.skip) ::
            UploadAction.appendChunk (ddChunkLen F c s.skip)
              (s.bytesUploaded == 0) :: tail, ?_, ?_⟩
          · rw [htail, hops]
            simp
          · exact ChunkBlocks.cons _ _ _ _ hblocks
    · simp only [chunkLoop, if_neg hb, loopExit] at heq
      by_cases h0 : rmE = 0 <;> simp [h0] at heq

/-- Every run of the uploader is the chunk loop started from an initial
state (resume or restart, lines 789-799) satisfying the loop
invariants. -/
theorem UploadLargeFile_eq_chunkLoop (F d m r rmE : Nat)
    (cancelFlag : Nat → Bool) :
    ∃ s₀ : LoopState,
      UploadLargeFileFromPosixSystem F d m r cancelFlag rmE =
        chunkLoop F (GetChunkSize F d m) cancelFlag rmE (F + 1) s₀ ∧
      (s₀.bytesUploaded < F →
        s₀.bytesUploaded = s₀.skip * GetChunkSize F d m) ∧
      (s₀.bytesUploaded = 0 ∨ s₀.remoteLen = s₀.bytesUploaded) ∧
      s₀.bytesUploaded ≤ F ∧
      s₀.ops = initOps := by
  by_cases hres : 0 < r ∧ r < F ∧ r % GetChunkSize F d m = 0
  · refine ⟨⟨r, r / GetChunkSize F d m, r, 0, initOps⟩,
      (by simp only [UploadLargeFileFromPosixSystem]; rw [if_pos hres]),
      ?_, Or.inr rfl, Nat.le_of_lt hres.2.1, rfl⟩
    intro _
    exact (Nat.div_mul_cancel (Nat.dvd_of_mod_eq_zero hres.2.2)).symm
  · refine ⟨⟨0, 0, r, 0, initOps⟩,
      (by simp only [UploadLargeFileFromPosixSystem]; rw [if_neg hres]),
      (by simp), Or.inl rfl, Nat.zero_le F, rfl⟩

/-- C1: resume correctness.  For a remote staging size `r` with
`0 < r < fileSize` and `r` an exact multiple of the chosen chunk size,
the uploader resumes at chunk index `r / chunkSize` (the first dd reads
that chunk), sends exactly `fileSize - r` further bytes over scp, and
on completion the reported `bytesUploaded` and the remote datafile
length both equal the declared `fileSize`. -/
theorem C1_resume_correctness (F d m r : Nat) (hd : 0 < d) (hr : 0 < r)
    (hrF : r < F) (hmod : r % GetChunkSize F d m = 0) :
    ∃ (s : LoopState) (mid : List UploadAction),
      UploadLargeFileFromPosixSystem F d m r (fun _ => false) 0 =
        UploadOutcome.completed s ∧
      s.bytesUploaded = F ∧
      s.remoteLen = F ∧
      s.ops = initOps ++ mid ++ [UploadAction.removeChunk] ∧
      scpBytes mid = F - r ∧
      (ddSkips mid).head? = some (r / GetChunkSize F d m) := by
  have hc := GetChunkSize_pos F d m hd
  set c := GetChunkSize F d m with hcdef
  have hres : 0 < r ∧ r < F ∧ r % c = 0 := ⟨hr, hrF, hmod⟩
  have hskip0 : r = r / c * c :=
    (Nat.div_mul_cancel (Nat.dvd_of_mod_eq_zero hmod)).symm
  have hfuel : F ≤ r + (F + 1) * c := by
    have h1 : (F + 1) * 1 ≤ (F + 1) * c := Nat.mul_le_mul_left (F + 1) hc
    omega
  obtain ⟨s', mid, heq, hb', hr', hops', hscp', hdd'⟩ :=
    chunkLoop_complete_spec F c 0 hc (F + 1)
      { bytesUploaded := r, skip := r / c, remoteLen := r, checkIdx := 0,
        ops := initOps }
      (fun _ => hskip0) (Or.inr rfl) (Nat.le_of_lt hrF) hfuel
  refine ⟨s', mid, ?_, hb', hr' (by omega), hops', by simpa using hscp', ?_⟩
  · simp only [UploadLargeFileFromPosixSystem]
    rw [if_pos hres]
    simpa using heq
  · rw [hdd']
    have hn : 1 ≤ (F - r + c - 1) / c := by
      rw [Nat.one_le_div_iff hc]
      omega
    obtain ⟨n, hn'⟩ : ∃ n, (F - r + c - 1) / c = n + 1 :=
      ⟨(F - r + c - 1) / c - 1, by omega⟩
    rw [hn']
    simp [seqFrom]

/-- Witness for C1_resume_correctness at F = 4, d = 1, m = 8, r = 2
(chunk size resolves to 1). -/
theorem C1_resume_correctness_witness :
    0 < 1 ∧ 0 < 2 ∧ 2 < 4 ∧ 2 % GetChunkSize 4 1 8 = 0 ∧
    ∃ (s : LoopState) (mid : List UploadAction),
      UploadLargeFileFromPosixSystem 4 1 8 2 (fun _ => false) 0 =
        UploadOutcome.completed s ∧
      s.bytesUploaded = 4 ∧
      s.remoteLen = 4 ∧
      s.ops = initOps ++ mid ++ [UploadAction.removeChunk] ∧
      scpBytes mid = 4 - 2 ∧
      (ddSkips mid).head? = some (2 / GetChunkSize 4 1 8) :=
  ⟨by decide, by decide, by decide, by decide,
    C1_resume_correctness 4 1 8 2 (by decide) (by decide) (by decide)
      (by decide)⟩

/-- C2: whole-chunks invariant.  At any observation point between chunk
iterations — i.e. whenever a cancellation check between chunks stops
the run while further chunks remain, after at least one chunk of this
run has been appended — the remote datafile length is an exact multiple
of the chosen chunk size, and everything the loop added to the trace is
complete chunk blocks: each chunk was dd-read, copied whole to the
remote temporary chunk path, and only then appended onto the final
remote path. -/
theorem C2_whole_chunks_invariant (F d m r rmE : Nat)
    (cancelFlag : Nat → Bool) (hd : 0 < d) (s' : LoopState)
    (hrun : UploadLargeFileFromPosixSystem F d m r cancelFlag rmE =
      UploadOutcome.canceled s')
    (hlt : s'.bytesUploaded < F)
    (happ : hasAppend s'.ops = true) :
    GetChunkSize F d m ∣ s'.remoteLen ∧
    ∃ tail, s'.ops = initOps ++ tail ∧ ChunkBlocks tail := by
  have hc := GetChunkSize_pos F d m hd
  obtain ⟨s₀, hrw, hskip, hrem, hle, hops⟩ :=
    UploadLargeFile_eq_chunkLoop F d m r rmE cancelFlag
  rw [hrw] at hrun
  have happ0 : hasAppend s₀.ops = true → s₀.remoteLen = s₀.bytesUploaded := by
    rw [hops]
    intro h
    simp [initOps, hasAppend] at h
  obtain ⟨h1, h2, tail, htail, hbl⟩ :=
    chunkLoop_canceled_spec F (GetChunkSize F d m) rmE hc cancelFlag
      (F + 1) s₀ s' hskip hrem happ0 hrun
  obtain ⟨N, hN⟩ := h1 hlt
  refine ⟨⟨N, by rw [h2 hlt happ, hN]; ring⟩, tail, by rw [htail, hops], hbl⟩

/-- Witness for C2_whole_chunks_invariant: F = 3, d = 1, m = 8, r = 0,
with the flag raised at the third check (between chunk 1 and chunk 2):
the run cancels at `bytesUploaded = 1` with remote length 1, a multiple
of the chunk size 1. -/
theorem C2_whole_chunks_invariant_witness :
    0 < 1 ∧
    UploadLargeFileFromPosixSystem 3 1 8 0 (fun i => i == 2) 0 =
      UploadOutcome.canceled
        { bytesUploaded := 1, skip := 1, remoteLen := 1, checkIdx := 3,
          ops := initOps ++ [UploadAction.ddRead 0 1, UploadAction.scpChunk 1,
            UploadAction.appendChunk 1 true] } ∧
    (1 : Nat) < 3 ∧
    hasAppend (initOps ++ [UploadAction.ddRead 0 1, UploadAction.scpChunk 1,
      UploadAction.appendChunk 1 true]) = true ∧
    (GetChunkSize 3 1 8 ∣ 1 ∧
      ∃ tail, initOps ++ [UploadAction.ddRead 0 1, UploadAction.scpChunk 1,
          UploadAction.appendChunk 1 true] = initOps ++ tail ∧
        ChunkBlocks tail) := by
  refine ⟨by decide, by decide, by decide, by decide, ?_⟩
  exact C2_whole_chunks_invariant 3 1 8 0 0 (fun i => i == 2) (by decide)
    { bytesUploaded := 1, skip := 1, remoteLen := 1, checkIdx := 3,
      ops := initOps ++ [UploadAction.ddRead 0 1, UploadAction.scpChunk 1,
        UploadAction.appendChunk 1 true] }
    (by decide) (by decide) (by decide)

/-- C5: cancellation between chunks.  If the shared shutdown flag or
the per-task cancel flag is observed at a chunk boundary while further
chunks remain, the uploader returns with outcome `canceled` (no
exception), `bytesTransferred` is exactly a whole number `N` of chunks
— never a partial chunk length — and the trace beyond the pre-loop
operations consists solely of complete chunk blocks: no further remote
operation (in particular no partial scp/append and no cleanup rm) is
issued after the observed flag. -/
theorem C5_cancel_between_chunks (F d m r rmE : Nat)
    (cancelFlag : Nat → Bool) (hd : 0 < d) (s' : LoopState)
    (hrun : UploadLargeFileFromPosixSystem F d m r cancelFlag rmE =
      UploadOutcome.canceled s')
    (hlt : s'.bytesUploaded < F) :
    (∃ N, s'.bytesUploaded = N * GetChunkSize F d m) ∧
    ∃ tail, s'.ops = initOps ++ tail ∧ ChunkBlocks tail := by
  have hc := GetChunkSize_pos F d m hd
  obtain ⟨s₀, hrw, hskip, hrem, hle, hops⟩ :=
    UploadLargeFile_eq_chunkLoop F d m r rmE cancelFlag
  rw [hrw] at hrun
  have happ0 : hasAppend s₀.ops = true → s₀.remoteLen = s₀.bytesUploaded := by
    rw [hops]
    intro h
    simp [initOps, hasAppend] at h
  obtain ⟨h1, h2, tail, htail, hbl⟩ :=
    chunkLoop_canceled_spec F (GetChunkSize F d m) rmE hc cancelFlag
      (F + 1) s₀ s' hskip hrem happ0 hrun
  exact ⟨h1 hlt, tail, by rw [htail, hops], hbl⟩

/-- Witness for C5_cancel_between_chunks: F = 5, d = 1, m = 4, r = 2
(a resume run), with the flag raised at the very first check: the run
cancels immediately with `bytesTransferred = 2`, a whole number of
chunks of size 1, having issued nothing beyond the pre-loop
operations. -/
theorem C5_cancel_between_chunks_witness :
    0 < 1 ∧
    UploadLargeFileFromPosixSystem 5 1 4 2 (fun i => i == 0) 0 =
      UploadOutcome.canceled
        { bytesUploaded := 2, skip := 2, remoteLen := 2, checkIdx := 1,
          ops := initOps } ∧
    (2 : Nat) < 5 ∧
    ((∃ N, 2 = N * GetChunkSize 5 1 4) ∧
      ∃ tail, initOps = initOps ++ tail ∧ ChunkBlocks tail) := by
  refine ⟨by decide, by decide, by decide, ?_⟩
  exact C5_cancel_between_chunks 5 1 4 2 0 (fun i => i == 0) (by decide)
    { bytesUploaded := 2, skip := 2, remoteLen := 2, checkIdx := 1,
      ops := initOps }
    (by decide) (by decide)

/-- C9 counterexample.  The claim says a failure of the post-loop
removal of the remote temporary chunk path is only logged, never raised.
In UploadLargeFileFromPosixSystem (lines 960-967) a non-zero exit code
of that remote rm raises SshException: here a 2-byte upload whose final
rm exits 1 ends in `sshError` (the raised exception), not in a logged
warning with normal completion. -/
theorem C9_counterexample :
    UploadLargeFileFromPosixSystem 2 1 4 0 (fun _ => false) 1 =
      UploadOutcome.sshError
        { bytesUploaded := 2, skip := 2, remoteLen := 2, checkIdx := 4,
          ops := initOps ++ [UploadAction.ddRead 0 1, UploadAction.scpChunk 1,
            UploadAction.appendChunk 1 true, UploadAction.ddRead 1 1,
            UploadAction.scpChunk 1, UploadAction.appendChunk 1 false,
            UploadAction.removeChunk] } ∧
    (∀ s : LoopState, UploadOutcome.sshError s ≠ UploadOutcome.completed s) := by
  constructor
  · decide
  · intro s h
    cases h

/-- C9 (corrected): after a chunk loop that completes successfully, the
POSIX uploader always issues the removal of the remote temporary chunk
path as its last operation; if that removal succeeds the run completes,
but if it fails (non-zero remote exit) the uploader raises SshException
to the caller rather than merely logging the failure.  (The Windows
variant, lines 1254-1257, removes only the local temporary directory —
best-effort, logged — and never removes the remote chunk path at all.) -/
theorem C9_cleanup_behavior (F d m r rmE : Nat) (hd : 0 < d) :
    ∃ (s : LoopState) (mid : List UploadAction),
      UploadLargeFileFromPosixSystem F d m r (fun _ => false) rmE =
        (if rmE = 0 then UploadOutcome.completed s
         else UploadOutcome.sshError s) ∧
      s.ops = initOps ++ mid ++ [UploadAction.removeChunk] := by
  have hc := GetChunkSize_pos F d m hd
  obtain ⟨s₀, hrw, hskip, hrem, hle, hops⟩ :=
    UploadLargeFile_eq_chunkLoop F d m r rmE (fun _ => false)
  have hfuel : F ≤ s₀.bytesUploaded + (F + 1) * GetChunkSize F d m := by
    have h1 : (F + 1) * 1 ≤ (F + 1) * GetChunkSize F d m :=
      Nat.mul_le_mul_left (F + 1) hc
    omega
  obtain ⟨s', mid, heq, hb', hr', hops', hscp', hdd'⟩ :=
    chunkLoop_complete_spec F (GetChunkSize F d m) rmE hc (F + 1) s₀
      hskip hrem hle hfuel
  exact ⟨s', mid, by rw [hrw, heq], by rw [hops', hops]⟩

/-- Witness for C9_cleanup_behavior at F = 1, d = 1, m = 2, r = 0,
rmExit = 1 (the cleanup failure case). -/
theorem C9_cleanup_behavior_witness :
    0 < 1 ∧
    ∃ (s : LoopState) (mid : List UploadAction),
      UploadLargeFileFromPosixSystem 1 1 2 0 (fun _ => false) 1 =
        (if 1 = 0 then UploadOutcome.completed s
         else UploadOutcome.sshError s) ∧
      s.ops = initOps ++ mid ++ [UploadAction.removeChunk] :=
  ⟨by decide, C9_cleanup_behavior 1 1 2 0 1 (by decide)⟩

/- ------------------------------------------------------------------
UploadFile dispatch, openssh.py lines 554-615.
------------------------------------------------------------------ -/

/-- The transfer mechanism UploadFile dispatches to (POSIX branch,
lines 605-615): UploadLargeFileFromPosixSystem when
`fileSize > largeFileSize`, else UploadSmallFileFromPosixSystem. -/
inductive UploadPath where
  | smallFile : UploadPath
  | largeFile : UploadPath
deriving DecidableEq

/-- UploadFile (lines 566-615, POSIX branch).
`bytesUploadedPreviously` is `uploadModel.GetBytesUploadedPreviously()`
(`none` models Python's None).  The elif chain of lines 568-590: None
becomes 0 and upload proceeds; `bytesUploaded == fileSize` returns
immediately (line 581) before any transfer is dispatched — modelled as
`none`; every other case dispatches by file size against the
large-file threshold. -/
def UploadFile (fileSize : Nat) (bytesUploadedPreviously : Option Nat)
    (largeFileSize : Nat) : Option UploadPath :=
  match bytesUploadedPreviously with
  | none =>
    if largeFileSize < fileSize then some UploadPath.largeFile
    else some UploadPath.smallFile
  | some b =>
    if 0 < b ∧ b < fileSize then
      (if largeFileSize < fileSize then some UploadPath.largeFile
       else some UploadPath.smallFile)
    else if b = fileSize then none
    else
      (if largeFileSize < fileSize then some UploadPath.largeFile
       else some UploadPath.smallFile)

/-- C4: idempotence.  Whenever the previously uploaded remote byte
count equals the declared file size, UploadFile returns at line 581
without dispatching any transfer mechanism — zero chunk transfers and
zero remote writes — for every file size and large-file threshold. -/
theorem C4_idempotent_skip (fileSize largeFileSize : Nat) :
    UploadFile fileSize (some fileSize) largeFileSize = none := by
  simp [UploadFile]

/-- Witness for C4_idempotent_skip at fileSize = 5, threshold = 3. -/
theorem C4_idempotent_skip_witness :
    UploadFile 5 (some 5) 3 = none :=
  C4_idempotent_skip 5 3

/- ------------------------------------------------------------------
Identity lookup, mydata/models/user.py lines 102-169.
------------------------------------------------------------------ -/

/-- Result of an identity lookup.  `httpError` models the
`raise Exception(message)` on a non-200 response (a transport error);
`doesNotExist` models `raise DoesNotExist(...)`; `user i` models
returning a UserModel built from `objects[i]`. -/
inductive UserLookupResult where
  | httpError (status : Nat) : UserLookupResult
  | doesNotExist : UserLookupResult
  | user (objectIndex : Nat) : UserLookupResult
deriving DecidableEq

/-- UserModel.GetUserByUsername (lines 102-133): non-200 status raises
a transport Exception; `meta.total_count == 0` raises DoesNotExist;
otherwise the UserModel is built from `objects[0]`, whatever
`total_count` is. -/
def GetUserByUsername (status totalCount : Nat) : UserLookupResult :=
  if status ≠ 200 then UserLookupResult.httpError status
  else if totalCount = 0 then UserLookupResult.doesNotExist
  else UserLookupResult.user 0

/-- UserModel.GetUserByEmail (lines 135-169): identical result logic to
GetUserByUsername. -/
def GetUserByEmail (status totalCount : Nat) : UserLookupResult :=
  if status ≠ 200 then UserLookupResult.httpError status
  else if totalCount = 0 then UserLookupResult.doesNotExist
  else UserLookupResult.user 0

/-- C6 counterexample.  The claim says the resolver signals a
distinguishable Ambiguous condition when more than one match is
returned and never silently picks one.  With a 200 response and
`total_count = 2`, both lookups return the user built from
`objects[0]`, indistinguishable from the unique-match outcome with
`total_count = 1`: the first of several matches is silently picked
(user.py lines 130-133 and 166-169 have no ambiguity branch). -/
theorem C6_counterexample :
    GetUserByUsername 200 2 = UserLookupResult.user 0 ∧
    GetUserByUsername 200 2 = GetUserByUsername 200 1 ∧
    GetUserByEmail 200 2 = UserLookupResult.user 0 ∧
    GetUserByEmail 200 2 = GetUserByEmail 200 1 := by decide

/-- C6 (corrected): both individual lookups signal DoesNotExist (a
condition distinct from the transport-error outcome) when zero matches
are returned; but when one or more matches are returned they return the
user built from the first match, with no Ambiguous condition. -/
theorem C6_lookup_behavior (totalCount : Nat) (htc : 0 < totalCount) :
    GetUserByUsername 200 0 = UserLookupResult.doesNotExist ∧
    GetUserByUsername 200 totalCount = UserLookupResult.user 0 ∧
    GetUserByEmail 200 0 = UserLookupResult.doesNotExist ∧
    GetUserByEmail 200 totalCount = UserLookupResult.user 0 ∧
    (∀ status, status ≠ 200 →
      GetUserByUsername status totalCount = UserLookupResult.httpError status) := by
  refine ⟨by decide, ?_, by decide, ?_, ?_⟩
  · simp [GetUserByUsername]
    omega
  · simp [GetUserByEmail]
    omega
  · intro status hs
    simp [GetUserByUsername, hs]

/-- Witness for C6_lookup_behavior at totalCount = 2. -/
theorem C6_lookup_behavior_witness :
    0 < 2 ∧
    (GetUserByUsername 200 0 = UserLookupResult.doesNotExist ∧
     GetUserByUsername 200 2 = UserLookupResult.user 0 ∧
     GetUserByEmail 200 0 = UserLookupResult.doesNotExist ∧
     GetUserByEmail 200 2 = UserLookupResult.user 0 ∧
     (∀ status, status ≠ 200 →
       GetUserByUsername status 2 = UserLookupResult.httpError status)) :=
  ⟨by decide, C6_lookup_behavior 2 (by decide)⟩

/- ------------------------------------------------------------------
Folder scanning, FoldersModel.py.
------------------------------------------------------------------ -/

/-- Outcome of the instrument-folder check at the top of
ImportGroupFolders (FoldersModel.py lines 611-638).
`invalidStructureMultiple` / `invalidStructureEmpty` model the
`raise InvalidFolderStructure` of lines 617-626;
`mismatchWarningProceed` models lines 627-635: the mismatch message is
logged as a warning, the raise is commented out (line 635), and
scanning proceeds into `instrumentFolders[0]`. -/
inductive GroupScanOutcome where
  | invalidStructureMultiple : GroupScanOutcome
  | invalidStructureEmpty : GroupScanOutcome
  | mismatchWarningProceed : GroupScanOutcome
  | proceed : GroupScanOutcome
deriving DecidableEq

/-- The instrument-folder validation of ImportGroupFolders: more than
one instrument folder or none raises InvalidFolderStructure; a name
differing from `settingsModel.GetInstrumentName()` only logs a warning
and proceeds — regardless of any attended/unattended mode, which this
code never consults. -/
def ImportGroupFoldersInstrumentCheck (instrumentFolders : List String)
    (instrumentName : String) : GroupScanOutcome :=
  if 1 < instrumentFolders.length then
    GroupScanOutcome.invalidStructureMultiple
  else if instrumentFolders.length = 0 then
    GroupScanOutcome.invalidStructureEmpty
  else if instrumentFolders.head?.getD "" ≠ instrumentName then
    GroupScanOutcome.mismatchWarningProceed
  else GroupScanOutcome.proceed

/-- C7 counterexample.  The claim says that a single instrument folder
whose name differs from the configured instrument name raises a hard
InvalidFolderStructure (unless unattended).  The check returns
`mismatchWarningProceed` — not either InvalidFolderStructure outcome —
because the raise at FoldersModel.py line 635 is commented out; the
code never consults an attended/unattended mode here. -/
theorem C7_counterexample :
    ImportGroupFoldersInstrumentCheck ["Microscope2"] "Microscope1" =
      GroupScanOutcome.mismatchWarningProceed ∧
    GroupScanOutcome.mismatchWarningProceed ≠
      GroupScanOutcome.invalidStructureMultiple ∧
    GroupScanOutcome.mismatchWarningProceed ≠
      GroupScanOutcome.invalidStructureEmpty := by decide

/-- C7 (corrected): for every group folder with exactly one
instrument-level subfolder whose name differs from the configured
instrument name, the scanner logs a warning and proceeds into that
(mismatched) subtree, in all modes; InvalidFolderStructure is raised
only for zero or multiple instrument folders. -/
theorem C7_mismatch_behavior (f instrumentName : String)
    (h : f ≠ instrumentName) :
    ImportGroupFoldersInstrumentCheck [f] instrumentName =
      GroupScanOutcome.mismatchWarningProceed ∧
    ImportGroupFoldersInstrumentCheck [] instrumentName =
      GroupScanOutcome.invalidStructureEmpty := by
  constructor
  · simp [ImportGroupFoldersInstrumentCheck, h]
  · simp [ImportGroupFoldersInstrumentCheck]

/-- Witness for C7_mismatch_behavior at folder name "A", configured
instrument name "B". -/
theorem C7_mismatch_behavior_witness :
    "A" ≠ "B" ∧
    (ImportGroupFoldersInstrumentCheck ["A"] "B" =
      GroupScanOutcome.mismatchWarningProceed ∧
     ImportGroupFoldersInstrumentCheck [] "B" =
      GroupScanOutcome.invalidStructureEmpty) :=
  ⟨by decide, C7_mismatch_behavior "A" "B" (by decide)⟩

/-- The error raised by the body of ImportUserFolders. -/
inductive ScanError where
  | invalidFolderStructure : ScanError
deriving DecidableEq

/-- Python's `str.lower()` for the folder names involved (basic latin
letters), character by character. -/
def pyLower (s : String) : String :=
  String.mk (s.data.map Char.toLower)

/-- The body of ImportUserFolders (FoldersModel.py lines 502-568) for
the structure 'Username / "MyTardis" / Experiment / Dataset': it scans
the user folder's subfolders for one named 'mytardis'
(case-insensitive, lines 556-565) and raises InvalidFolderStructure
when none is found (lines 566-568). -/
def ImportUserFoldersBody (subfolders : List String) : Except ScanError Unit :=
  if subfolders.any (fun f => pyLower f == "mytardis") then Except.ok ()
  else Except.error ScanError.invalidFolderStructure

/-- ImportUserFolders as its caller observes it (lines 501-570): the
whole body runs inside `try: ... except: print traceback.format_exc()`,
a bare except that also catches the InvalidFolderStructure the body
itself raised, prints it, and returns normally.  The returned Bool
records whether a traceback was printed; no exception ever reaches the
caller. -/
def ImportUserFolders (subfolders : List String) : Bool :=
  match ImportUserFoldersBody subfolders with
  | Except.ok _ => false
  | Except.error _ => true

/-- ScanForUserFolders (lines 387-454): iterates over every user
folder, calling ImportUserFolders on each; since ImportUserFolders
never raises, every user folder is processed even after a structural
error was swallowed in an earlier one.  Each processed user folder is
paired with whether a traceback was printed for it. -/
def ScanForUserFolders (userFolders : List (String × List String)) :
    List (String × Bool) :=
  userFolders.map (fun uf => (uf.1, ImportUserFolders uf.2))

/-- C8 (code bug).  At the failing input — user folder "alice" with
subfolders ["Dataset1"] (no MyTardis marker folder) followed by user
folder "bob" with one — the body raises InvalidFolderStructure, but the
bare except at FoldersModel.py line 569 swallows it (printing the
traceback), ImportUserFolders returns normally, and the scan pass
continues to process "bob" instead of halting.  The sibling
ImportGroupFolders (lines 687-688) explicitly re-raises
InvalidFolderStructure, so the swallow is a slip and the claim reflects
the intended behaviour. -/
theorem C8_swallowed_structural_error :
    ImportUserFoldersBody ["Dataset1"] =
      Except.error ScanError.invalidFolderStructure ∧
    ImportUserFolders ["Dataset1"] = true ∧
    ScanForUserFolders [("alice", ["Dataset1"]), ("bob", ["MyTardis"])] =
      [("alice", true), ("bob", false)] :=
  ⟨rfl, rfl, rfl⟩

/- ------------------------------------------------------------------
Verification requests, mydata/models/datafile.py lines 144-161.
------------------------------------------------------------------ -/

/-- What DataFileModel.Verify produces: the value it returns to its
caller and whether it logged the failure warnings of lines 153-154. -/
structure VerifyResult where
  returnValue : Bool
  warningLogged : Bool
deriving DecidableEq

/-- DataFileModel.Verify: a response status outside 2xx only logs two
warnings; the function returns True unconditionally. -/
def Verify (statusCode : Nat) : VerifyResult :=
  if statusCode < 200 ∨ 300 ≤ statusCode then
    { returnValue := true, warningLogged := true }
  else
    { returnValue := true, warningLogged := false }

/-- C10: Verify returns True for every HTTP status, so its return value
never distinguishes an accepted verification request from a rejected
one; a non-2xx status is only recorded as a logged warning. -/
theorem C10_verify_always_true (sc sc' : Nat) :
    (Verify sc).returnValue = true ∧
    (Verify sc).returnValue = (Verify sc').returnValue ∧
    (Verify sc).warningLogged = decide (sc < 200 ∨ 300 ≤ sc) := by
  unfold Verify
  by_cases h : sc < 200 ∨ 300 ≤ sc <;>
    by_cases h' : sc' < 200 ∨ 300 ≤ sc' <;>
      simp [h, h']

/-- Witness for C10_verify_always_true at a rejected (404) and an
accepted (200) status. -/
theorem C10_verify_always_true_witness :
    (Verify 404).returnValue = true ∧
    (Verify 404).returnValue = (Verify 200).returnValue ∧
    (Verify 404).warningLogged = decide (404 < 200 ∨ 300 ≤ 404) :=
  C10_verify_always_true 404 200

end MyData
